import Mathlib

/-!
Verification development for the lancelot behaviour-verification engine.

The constraint hierarchy is embedded from `src/lancelot/constraints.py`.
Python exceptions are modelled by `PyError`: `exact` is the identifier of
the exception's exact class, `supers` the identifiers of its proper
superclasses (so an `except K` clause catches an error `e` iff
`K = e.exact` or `K ∈ e.supers`), and `msg` its message.  Exception class
names are abstracted as indexed names via `pyClassName`.  The modules
`lancelot/verification.py` and `lancelot/comparators.py` are not part of
the sources at hand; the definitions taken from them are modelled from the
specification and marked as such in their doc comments.

A deferred action is modelled by the outcome of its single invocation:
`Except PyError Value`.  Stateful behaviour (mock collaborations, the
registry with its listener) is embedded with explicit state passing over
an event trace.
-/

/-- Universe of plain Python values handled by the engine. -/
inductive Value where
  | none : Value
  | bool (b : Bool) : Value
  | int (n : Int) : Value
  | str (s : String) : Value
deriving DecidableEq, Repr

/-- Model of `repr(value)` for `Value` (quotes around strings elided). -/
def pyRepr : Value → String
  | Value.none => "None"
  | Value.bool true => "True"
  | Value.bool false => "False"
  | Value.int n => toString n
  | Value.str s => s

/-- Model of a raised Python exception: exact class, proper superclasses,
message. -/
structure PyError where
  exact : Nat
  supers : List Nat
  msg : String
deriving DecidableEq, Repr

/-- Class identifier reserved for `UnmetSpecification`. -/
def unmetKind : Nat := 0

/-- Whether an `except K` clause catches the error `e` (Python semantics:
the exact class or any superclass matches). -/
def pyCatches (k : Nat) (e : PyError) : Bool :=
  e.exact == k || e.supers.contains k

/-- `UnmetSpecification(msg)` from `lancelot/verification.py` (constructor
only; the class carries one descriptive text). -/
def Lancelot.UnmetSpecification (m : String) : PyError :=
  { exact := unmetKind, supers := [], msg := m }

/-- Whether `e` would be caught by `except UnmetSpecification`. -/
def isUnmet (e : PyError) : Bool :=
  pyCatches unmetKind e

/-- Abstract exception class names, for `%s % type.__name__` and `%r`. -/
def pyClassName (k : Nat) : String := "E" ++ toString k

/-- Model of `repr(exception)` : class name and message. -/
def pyErrRepr (e : PyError) : String :=
  pyClassName e.exact ++ "(" ++ e.msg ++ ")"

/-- A deferred action, represented by the outcome of its one invocation. -/
abbrev PyAction := Except PyError Value

/-- A constraint object, viewed through the interface the engine uses:
`verify` (which raises `UnmetSpecification` or propagates) and
`describe_constraint`. -/
structure Lancelot.Constraint where
  verify : PyAction → Except PyError Unit
  describe_constraint : String

/-- Modelled from the spec: the `Anything` comparator of
`lancelot/comparators.py` (not under the sources at hand) accepts every
value — "*Anything* (always succeeds)". -/
def anythingComparesTo (_ : Value) : Bool := true

/-- Modelled from the spec: the `EqualsEquals` comparator of
`lancelot/comparators.py` (not under the sources at hand) compares the
actual outcome to the specified value "using value equality". -/
def equalsEqualsComparesTo (specified : Value) (v : Value) : Bool :=
  v == specified

/-- `Constraint.verify` from `constraints.py` lines 27-33: invoke the
action, return when the comparator accepts the value, otherwise raise
`UnmetSpecification` with `describe ++ ", not " ++ repr(value)`.  An
exception raised by the action itself propagates out of `_invoke`. -/
def constraintVerify (comparator : Value → Bool) (describe : String)
    (action : PyAction) : Except PyError Unit :=
  match action with
  | Except.error e => Except.error e
  | Except.ok v =>
    if comparator v then Except.ok ()
    else Except.error (Lancelot.UnmetSpecification (describe ++ ", not " ++ pyRepr v))

/-- `BeAnything` from `constraints.py` lines 49-58. -/
def Lancelot.BeAnything : Lancelot.Constraint :=
  { verify := constraintVerify anythingComparesTo "should be anything"
    describe_constraint := "should be anything" }

/-- `BeEqualTo(specified)` from `constraints.py` lines 91-101. -/
def Lancelot.BeEqualTo (specified : Value) : Lancelot.Constraint :=
  { verify := constraintVerify (equalsEqualsComparesTo specified)
      ("should be == " ++ pyRepr specified)
    describe_constraint := "should be == " ++ pyRepr specified }

/-- Argument of `Raise(specified)`: an exception type or an exception
instance (`constraints.py` lines 63-73). -/
inductive RaiseSpec where
  | ofType (kind : Nat)
  | ofInstance (e : PyError)
deriving DecidableEq, Repr

/-- `self._specified_type` of `Raise.__init__`: the type itself, or
`type(specified)` for an instance. -/
def RaiseSpec.specifiedType : RaiseSpec → Nat
  | RaiseSpec.ofType k => k
  | RaiseSpec.ofInstance e => e.exact

/-- `self._description` of `Raise.__init__`. -/
def raiseDescribe : RaiseSpec → String
  | RaiseSpec.ofType k => "should raise " ++ pyClassName k
  | RaiseSpec.ofInstance e => "should raise " ++ pyErrRepr e

/-- Modelled from the spec: the `ExceptionValue` comparator of
`lancelot/comparators.py` (not under the sources at hand).  For a
specified type the raised error must be "of exactly `kind` ... must be the
declared kind"; for a specified instance "both kind and exact message"
must match. -/
def exceptionValueComparesTo : RaiseSpec → PyError → Bool
  | RaiseSpec.ofType k, e => e.exact == k
  | RaiseSpec.ofInstance s, e => e.exact == s.exact && e.msg == s.msg

/-- `Raise.verify` from `constraints.py` lines 75-85: invoke inside
`try`; `except self._specified_type` catches the raised error when the
specified type is its class or a superclass; a caught error is accepted
iff the `ExceptionValue` comparator matches, otherwise
`UnmetSpecification(describe ++ ", not " ++ repr(raised))` is raised; an
uncaught error propagates; a normal return falls through to
`UnmetSpecification(describe)`. -/
def raiseVerify (spec : RaiseSpec) (action : PyAction) : Except PyError Unit :=
  match action with
  | Except.ok _ => Except.error (Lancelot.UnmetSpecification (raiseDescribe spec))
  | Except.error raised =>
    if pyCatches spec.specifiedType raised then
      if exceptionValueComparesTo spec raised then Except.ok ()
      else Except.error (Lancelot.UnmetSpecification
        (raiseDescribe spec ++ ", not " ++ pyErrRepr raised))
    else Except.error raised

/-- `Raise(specified)` from `constraints.py` lines 60-89. -/
def Lancelot.Raise (spec : RaiseSpec) : Lancelot.Constraint :=
  { verify := raiseVerify spec
    describe_constraint := raiseDescribe spec }

/-- Model of Python `str.replace(pat, repl, 1)` on character lists:
replace the first occurrence of `pat`, if any. -/
def replaceFirst (pat repl : List Char) : List Char → List Char
  | [] => if pat.isPrefixOf ([] : List Char) then repl else []
  | c :: cs =>
    if pat.isPrefixOf (c :: cs) then repl ++ (c :: cs).drop pat.length
    else c :: replaceFirst pat repl cs

/-- Model of Python `str.startswith`. -/
def pyStartsWith (s pre : String) : Bool :=
  pre.data.isPrefixOf s.data

/-- `Not.describe_constraint` from `constraints.py` lines 131-138, as a
function of the inner description. -/
def notDescribe (msg : String) : String :=
  if pyStartsWith msg "should not " then
    ⟨replaceFirst "should not ".data "should ".data msg.data⟩
  else if pyStartsWith msg "should " then
    ⟨replaceFirst "should ".data "should not ".data msg.data⟩
  else "Not: " ++ msg

/-- `Not(constraint)` from `constraints.py` lines 115-138: `verify`
delegates to the inner constraint, returns on `UnmetSpecification`
(caught with Python `except` semantics), raises
`UnmetSpecification(describe)` when the inner verify returned, and lets
any other exception propagate. -/
def Lancelot.Not (c : Lancelot.Constraint) : Lancelot.Constraint :=
  { verify := fun action =>
      match c.verify action with
      | Except.ok _ =>
        Except.error (Lancelot.UnmetSpecification (notDescribe c.describe_constraint))
      | Except.error e =>
        if isUnmet e then Except.ok () else Except.error e
    describe_constraint := notDescribe c.describe_constraint }

/-- Handle returned by arming a collaboration expectation
(`start_collaborating()`); its `verify` runs over an explicit state and
either returns or raises. -/
structure MockHandle (σ : Type) where
  verify : σ → Except PyError Unit × σ

/-- A collaboration expectation as `CollaborateWith` consumes it:
`start_collaborating` arms the expectation and yields a handle, and may
itself raise. -/
structure Collaboration (σ : Type) where
  start_collaborating : σ → Except PyError (MockHandle σ) × σ

/-- The first loop of `CollaborateWith.verify` (`constraints.py` lines
150-152): arm every collaboration in declaration order, collecting the
handles; an exception aborts the loop and propagates. -/
def collabArm {σ : Type} : List (Collaboration σ) → σ →
    Except PyError (List (MockHandle σ)) × σ
  | [], s => (Except.ok [], s)
  | c :: rest, s =>
    match c.start_collaborating s with
    | (Except.error e, s1) => (Except.error e, s1)
    | (Except.ok h, s1) =>
      match collabArm rest s1 with
      | (Except.error e, s2) => (Except.error e, s2)
      | (Except.ok hs, s2) => (Except.ok (h :: hs), s2)

/-- The second loop of `CollaborateWith.verify` (`constraints.py` lines
154-155): verify each armed handle in order; the first exception aborts
the loop and propagates. -/
def collabVerifyHandles {σ : Type} : List (MockHandle σ) → σ →
    Except PyError Unit × σ
  | [], s => (Except.ok (), s)
  | h :: rest, s =>
    match h.verify s with
    | (Except.error e, s1) => (Except.error e, s1)
    | (Except.ok _, s1) => collabVerifyHandles rest s1

/-- `CollaborateWith.verify` from `constraints.py` lines 148-155: arm all
expectations, invoke the deferred action once, then verify each handle;
any exception at any stage propagates unchanged (there is no handler). -/
def Lancelot.collaborateWithVerify {σ : Type} (collabs : List (Collaboration σ))
    (action : σ → Except PyError Value × σ) (s : σ) : Except PyError Unit × σ :=
  match collabArm collabs s with
  | (Except.error e, s1) => (Except.error e, s1)
  | (Except.ok hs, s1) =>
    match action s1 with
    | (Except.error e, s2) => (Except.error e, s2)
    | (Except.ok _, s2) => collabVerifyHandles hs s2

/-- Observable events of a collaboration run, used to state ordering and
single-invocation properties. -/
inductive TEvent where
  | started (i : Nat)
  | invoked
  | checked (i : Nat)
deriving DecidableEq, Repr

/-- Instrumented handle `i`: records that its `verify` ran and fails with
`fails i` when that is set. -/
def mkHandle (fails : Nat → Option PyError) (i : Nat) : MockHandle (List TEvent) :=
  { verify := fun s =>
      match fails i with
      | some e => (Except.error e, s ++ [TEvent.checked i])
      | none => (Except.ok (), s ++ [TEvent.checked i]) }

/-- Instrumented collaboration `i`: records that it was armed and yields
the instrumented handle `i`. -/
def mkCollab (fails : Nat → Option PyError) (i : Nat) : Collaboration (List TEvent) :=
  { start_collaborating := fun s =>
      (Except.ok (mkHandle fails i), s ++ [TEvent.started i]) }

/-- Instrumented deferred action: records its invocation and returns. -/
def recordingAction (s : List TEvent) : Except PyError Value × List TEvent :=
  (Except.ok Value.none, s ++ [TEvent.invoked])

/-- Listener notifications, in the order the registry emits them.  The
registry argument of `runStarting`/`runEnding` is implicit (a run concerns
one registry); `runEnding` carries the result tallies. -/
inductive LEvent where
  | runStarting
  | verificationStarted (id : Nat)
  | specificationMet (id : Nat)
  | specificationUnmet (id : Nat) (e : PyError)
  | runEnding (total verified unverified : Nat)
deriving DecidableEq, Repr

/-- Result mapping returned by `verify()`: keys `total`, `verified`,
`unverified`. -/
structure RunResults where
  total : Nat
  verified : Nat
  unverified : Nat
deriving DecidableEq, Repr

/-- A registered verifiable specification: an identity (for listener
notifications) and the outcome of invoking it once. -/
structure Verifiable where
  id : Nat
  outcome : Except PyError Unit
deriving Repr

/-- Modelled from the spec: the `AllVerifiable` registry of
`lancelot/verification.py` (not under the sources at hand) "owns an
ordered collection of verifiable entries (insertion order is significant
and preserved)". -/
structure Lancelot.AllVerifiable where
  specs : List Verifiable
deriving Repr

/-- Modelled from the spec: `include(specification)` "appends a new entry
in insertion order; returns the registry itself"; the returned registry is
the updated one. -/
def Lancelot.AllVerifiable.includeSpec (r : Lancelot.AllVerifiable)
    (s : Verifiable) : Lancelot.AllVerifiable :=
  { specs := r.specs ++ [s] }

/-- Modelled from the spec: `total()` is the "current entry count,
independent of run state". -/
def Lancelot.AllVerifiable.total (r : Lancelot.AllVerifiable) : Nat :=
  r.specs.length

/-- Modelled from the spec: `_verify_fn` — notify "verification started",
invoke the specification, notify "specification met" on normal return or
"specification unmet" with the raw error on any raised error; yields
`true` for success, `false` for failure. -/
def Lancelot.verifyFn (s : Verifiable) (tr : List LEvent) : Bool × List LEvent :=
  let tr1 := tr ++ [LEvent.verificationStarted s.id]
  match s.outcome with
  | Except.ok _ => (true, tr1 ++ [LEvent.specificationMet s.id])
  | Except.error e => (false, tr1 ++ [LEvent.specificationUnmet s.id e])

/-- Modelled from the spec: the loop of `verify()` — every entry is run in
insertion order regardless of earlier failures, tallying verified and
unverified counts. -/
def Lancelot.verifyLoop : List Verifiable → List LEvent → (Nat × Nat) × List LEvent
  | [], tr => ((0, 0), tr)
  | s :: rest, tr =>
    match Lancelot.verifyFn s tr with
    | (ok, tr1) =>
      match Lancelot.verifyLoop rest tr1 with
      | ((v, u), tr2) =>
        (((if ok then v + 1 else v), (if ok then u else u + 1)), tr2)

/-- Modelled from the spec: `verify()` — bracket the loop with
"run starting" and "run ending" notifications and return the result
mapping `{total, verified, unverified}` freshly computed for this run. -/
def Lancelot.AllVerifiable.verify (r : Lancelot.AllVerifiable)
    (tr : List LEvent) : RunResults × List LEvent :=
  let tr1 := tr ++ [LEvent.runStarting]
  match Lancelot.verifyLoop r.specs tr1 with
  | ((v, u), tr2) =>
    ({ total := r.specs.length, verified := v, unverified := u },
     tr2 ++ [LEvent.runEnding r.specs.length v u])

/-- The number of registered specifications that verify successfully. -/
def countVerified (specs : List Verifiable) : Nat :=
  (specs.filter fun s => match s.outcome with
    | Except.ok _ => true
    | Except.error _ => false).length

/-- The number of registered specifications that raise when invoked. -/
def countUnverified (specs : List Verifiable) : Nat :=
  (specs.filter fun s => match s.outcome with
    | Except.ok _ => false
    | Except.error _ => true).length

/-- The listener notifications one entry produces during a run. -/
def specEvents (s : Verifiable) : List LEvent :=
  match s.outcome with
  | Except.ok _ => [LEvent.verificationStarted s.id, LEvent.specificationMet s.id]
  | Except.error e => [LEvent.verificationStarted s.id, LEvent.specificationUnmet s.id e]

/-- The identities announced by `verificationStarted` events, in order. -/
def startedIds (tr : List LEvent) : List Nat :=
  tr.filterMap fun ev => match ev with
    | LEvent.verificationStarted i => some i
    | _ => none

/-- The outcome of a `verify` call was a raised constraint-unmet signal. -/
def unmetResult (r : Except PyError Unit) : Prop :=
  ∃ e, r = Except.error e ∧ isUnmet e = true

theorem isUnmet_unmetSpecification (m : String) :
    isUnmet (Lancelot.UnmetSpecification m) = true := rfl

/-- C10: `BeAnything.verify` succeeds on every normally returning action,
whatever the value, and propagates unchanged any error the action
raises. -/
theorem beAnything_accepts_returns_propagates_errors :
    (∀ v : Value, Lancelot.BeAnything.verify (Except.ok v) = Except.ok ()) ∧
    (∀ e : PyError, Lancelot.BeAnything.verify (Except.error e) = Except.error e) :=
  ⟨fun _ => rfl, fun _ => rfl⟩

/-- C3: `Not(C).verify(D)` succeeds iff `C.verify(D)` raises a
constraint-unmet signal, and raises a constraint-unmet signal iff
`C.verify(D)` succeeds. -/
theorem not_strict_inverse (c : Lancelot.Constraint) (a : PyAction) :
    ((Lancelot.Not c).verify a = Except.ok () ↔ unmetResult (c.verify a)) ∧
    (unmetResult ((Lancelot.Not c).verify a) ↔ c.verify a = Except.ok ()) := by
  cases h : c.verify a with
  | ok u =>
    cases u
    constructor
    · simp [Lancelot.Not, h, unmetResult]
    · simp [Lancelot.Not, h, unmetResult, isUnmet_unmetSpecification]
  | error e =>
    by_cases he : isUnmet e = true
    · constructor
      · simp [Lancelot.Not, h, he, unmetResult]
      · simp [Lancelot.Not, h, he, unmetResult]
    · constructor
      · simp [Lancelot.Not, h, he, unmetResult]
      · simp only [Lancelot.Not, h, he, if_false, unmetResult]
        constructor
        · rintro ⟨e', he', hu⟩
          cases he'
          exact absurd hu he
        · intro hc
          exact absurd hc (by simp)

/-- C4: `BeEqualTo(v).verify` succeeds iff the returned value is
value-equal to `v`; when unequal the raised constraint-unmet signal's
text ends with the textual representation of the actual value. -/
theorem beEqualTo_value_equality (v w : Value) :
    ((Lancelot.BeEqualTo v).verify (Except.ok w) = Except.ok () ↔ w = v) ∧
    (w ≠ v → ∃ pre,
      (Lancelot.BeEqualTo v).verify (Except.ok w) =
        Except.error (Lancelot.UnmetSpecification (pre ++ pyRepr w)) ∧
      isUnmet (Lancelot.UnmetSpecification (pre ++ pyRepr w)) = true) := by
  constructor
  · by_cases h : w = v
    · simp [Lancelot.BeEqualTo, constraintVerify, equalsEqualsComparesTo, h]
    · simp [Lancelot.BeEqualTo, constraintVerify, equalsEqualsComparesTo, h]
  · intro h
    refine ⟨"should be == " ++ pyRepr v ++ ", not ", ?_, rfl⟩
    simp [Lancelot.BeEqualTo, constraintVerify, equalsEqualsComparesTo, h]

/-- C4 witness: `BeEqualTo(5)` on an action returning `6`. -/
theorem beEqualTo_value_equality_witness :
    ∃ pre,
      (Lancelot.BeEqualTo (Value.int 5)).verify (Except.ok (Value.int 6)) =
        Except.error (Lancelot.UnmetSpecification (pre ++ pyRepr (Value.int 6))) ∧
      isUnmet (Lancelot.UnmetSpecification (pre ++ pyRepr (Value.int 6))) = true :=
  (beEqualTo_value_equality (Value.int 5) (Value.int 6)).2 (by decide)

/-- C7: `Raise(instance)` succeeds only when both the kind and the exact
message of the raised error match the instance; right kind with a
different message raises a constraint-unmet signal whose text contains
the actual raised error's text. -/
theorem raise_instance_kind_and_message (e0 : PyError) (a : PyAction) :
    ((Lancelot.Raise (RaiseSpec.ofInstance e0)).verify a = Except.ok () →
      ∃ r, a = Except.error r ∧ r.exact = e0.exact ∧ r.msg = e0.msg) ∧
    (∀ r, a = Except.error r → r.exact = e0.exact → r.msg ≠ e0.msg →
      ∃ pre post,
        (Lancelot.Raise (RaiseSpec.ofInstance e0)).verify a =
          Except.error (Lancelot.UnmetSpecification (pre ++ (r.msg ++ post))) ∧
        isUnmet (Lancelot.UnmetSpecification (pre ++ (r.msg ++ post))) = true) := by
  constructor
  · intro h
    cases a with
    | ok v =>
      simp [Lancelot.Raise, raiseVerify] at h
    | error r =>
      refine ⟨r, rfl, ?_⟩
      simp only [Lancelot.Raise, raiseVerify] at h
      by_cases hc : pyCatches (RaiseSpec.ofInstance e0).specifiedType r = true
      · simp only [hc, if_true] at h
        by_cases hv : exceptionValueComparesTo (RaiseSpec.ofInstance e0) r = true
        · simp only [exceptionValueComparesTo, Bool.and_eq_true, beq_iff_eq] at hv
          exact hv
        · simp [hv] at h
      · simp [hc] at h
  · intro r har hk hm
    subst har
    have hc : pyCatches (RaiseSpec.ofInstance e0).specifiedType r = true := by
      simp [pyCatches, RaiseSpec.specifiedType, hk]
    have hv : exceptionValueComparesTo (RaiseSpec.ofInstance e0) r = false := by
      simp [exceptionValueComparesTo, hk, hm]
    refine ⟨raiseDescribe (RaiseSpec.ofInstance e0) ++ ", not " ++
      pyClassName r.exact ++ "(", ")", ?_, rfl⟩
    have hstep : (Lancelot.Raise (RaiseSpec.ofInstance e0)).verify (Except.error r) =
        Except.error (Lancelot.UnmetSpecification
          (raiseDescribe (RaiseSpec.ofInstance e0) ++ ", not " ++ pyErrRepr r)) := by
      simp [Lancelot.Raise, raiseVerify, hc, hv]
    rw [hstep]
    congr 2
    apply String.ext
    simp [pyErrRepr]

/-- C7 witness: right kind, wrong message, at a concrete instance. -/
theorem raise_instance_kind_and_message_witness :
    ∃ pre post,
      (Lancelot.Raise (RaiseSpec.ofInstance { exact := 4, supers := [], msg := "want" })).verify
          (Except.error { exact := 4, supers := [], msg := "got" }) =
        Except.error (Lancelot.UnmetSpecification (pre ++ ("got" ++ post))) ∧
      isUnmet (Lancelot.UnmetSpecification (pre ++ ("got" ++ post))) = true :=
  (raise_instance_kind_and_message { exact := 4, supers := [], msg := "want" }
      (Except.error { exact := 4, supers := [], msg := "got" })).2
    { exact := 4, supers := [], msg := "got" } rfl rfl (by decide)

/-- C2 counterexample: for `K = 1` an action raising an error of the
strictly different kind `2` (a strict subtype of `1`, since `1` is among
its superclasses) does not propagate unchanged — `Raise(1).verify`
converts it into a constraint-unmet signal. -/
theorem raise_kind_subtype_counterexample :
    (2 : Nat) ≠ 1 ∧
    (Lancelot.Raise (RaiseSpec.ofType 1)).verify
        (Except.error { exact := 2, supers := [1], msg := "boom" }) =
      Except.error (Lancelot.UnmetSpecification "should raise E1, not E2(boom)") ∧
    isUnmet (Lancelot.UnmetSpecification "should raise E1, not E2(boom)") = true :=
  ⟨by decide, rfl, rfl⟩

/-- C2 (amended): `Raise(K).verify(action)` succeeds iff `action()`
raises an error of kind exactly `K` (a strict subtype of `K` does not
count); a normal return raises a constraint-unmet signal; an error of a
kind that `K` does not catch (neither `K` nor a subtype of `K`)
propagates unchanged; an error of a strict subtype of `K` is caught and
converted into a constraint-unmet signal. -/
theorem raise_kind_exact_match (K : Nat) (a : PyAction) :
    ((Lancelot.Raise (RaiseSpec.ofType K)).verify a = Except.ok () ↔
      ∃ e, a = Except.error e ∧ e.exact = K) ∧
    (∀ v, a = Except.ok v →
      (Lancelot.Raise (RaiseSpec.ofType K)).verify a =
        Except.error (Lancelot.UnmetSpecification (raiseDescribe (RaiseSpec.ofType K)))) ∧
    (∀ e, a = Except.error e → pyCatches K e = false →
      (Lancelot.Raise (RaiseSpec.ofType K)).verify a = Except.error e) ∧
    (∀ e, a = Except.error e → e.exact ≠ K → pyCatches K e = true →
      unmetResult ((Lancelot.Raise (RaiseSpec.ofType K)).verify a)) := by
  refine ⟨?_, ?_, ?_, ?_⟩
  · constructor
    · intro h
      cases a with
      | ok v => simp [Lancelot.Raise, raiseVerify] at h
      | error e =>
        refine ⟨e, rfl, ?_⟩
        simp only [Lancelot.Raise, raiseVerify] at h
        by_cases hc : pyCatches (RaiseSpec.ofType K).specifiedType e = true
        · simp only [hc, if_true] at h
          by_cases hv : exceptionValueComparesTo (RaiseSpec.ofType K) e = true
          · simpa [exceptionValueComparesTo] using hv
          · simp [hv] at h
        · simp [hc] at h
    · rintro ⟨e, rfl, hk⟩
      have hc : pyCatches (RaiseSpec.ofType K).specifiedType e = true := by
        simp [pyCatches, RaiseSpec.specifiedType, hk]
      have hv : exceptionValueComparesTo (RaiseSpec.ofType K) e = true := by
        simp [exceptionValueComparesTo, hk]
      simp [Lancelot.Raise, raiseVerify, hc, hv]
  · rintro v rfl
    rfl
  · rintro e rfl hc
    have hc' : pyCatches (RaiseSpec.ofType K).specifiedType e = false := hc
    simp [Lancelot.Raise, raiseVerify, hc']
  · rintro e rfl hk hc
    have hc' : pyCatches (RaiseSpec.ofType K).specifiedType e = true := hc
    have hv : exceptionValueComparesTo (RaiseSpec.ofType K) e = false := by
      simp [exceptionValueComparesTo, hk]
    refine ⟨Lancelot.UnmetSpecification
      (raiseDescribe (RaiseSpec.ofType K) ++ ", not " ++ pyErrRepr e), ?_, rfl⟩
    simp [Lancelot.Raise, raiseVerify, hc', hv]

/-- C2 witness: the amended behaviour at concrete inputs — an exact match
succeeds, a normal return is unmet, an uncaught kind propagates, a strict
subtype yields an unmet signal. -/
theorem raise_kind_exact_match_witness :
    (Lancelot.Raise (RaiseSpec.ofType 1)).verify
        (Except.error { exact := 1, supers := [], msg := "boom" }) = Except.ok () ∧
    (Lancelot.Raise (RaiseSpec.ofType 1)).verify (Except.ok Value.none) =
      Except.error (Lancelot.UnmetSpecification (raiseDescribe (RaiseSpec.ofType 1))) ∧
    (Lancelot.Raise (RaiseSpec.ofType 1)).verify
        (Except.error { exact := 3, supers := [2], msg := "boom" }) =
      Except.error { exact := 3, supers := [2], msg := "boom" } ∧
    unmetResult ((Lancelot.Raise (RaiseSpec.ofType 1)).verify
        (Except.error { exact := 2, supers := [1], msg := "boom" })) :=
  ⟨(raise_kind_exact_match 1 _).1.mpr ⟨{ exact := 1, supers := [], msg := "boom" }, rfl, rfl⟩,
   (raise_kind_exact_match 1 _).2.1 Value.none rfl,
   (raise_kind_exact_match 1 _).2.2.1 { exact := 3, supers := [2], msg := "boom" } rfl (by decide),
   (raise_kind_exact_match 1 _).2.2.2 { exact := 2, supers := [1], msg := "boom" } rfl
     (by decide) (by decide)⟩

theorem pyStartsWith_iff (s p : String) :
    pyStartsWith s p = true ↔ ∃ rest, s = p ++ rest := by
  unfold pyStartsWith
  rw [List.isPrefixOf_iff_prefix]
  constructor
  · rintro ⟨t, ht⟩
    refine ⟨⟨t⟩, String.ext ?_⟩
    rw [String.data_append]
    exact ht.symm
  · rintro ⟨rest, rfl⟩
    rw [String.data_append]
    exact List.prefix_append p.data rest.data

theorem replaceFirst_of_isPrefix (pat repl tail : List Char) (h : pat ≠ []) :
    replaceFirst pat repl (pat ++ tail) = repl ++ tail := by
  cases pat with
  | nil => exact absurd rfl h
  | cons c cs =>
    show replaceFirst (c :: cs) repl (c :: (cs ++ tail)) = repl ++ tail
    rw [replaceFirst]
    have hpre : (c :: cs).isPrefixOf (c :: (cs ++ tail)) = true := by
      rw [show c :: (cs ++ tail) = (c :: cs) ++ tail from rfl,
        List.isPrefixOf_iff_prefix]
      exact List.prefix_append (c :: cs) tail
    rw [if_pos hpre, show c :: (cs ++ tail) = (c :: cs) ++ tail from rfl,
      List.drop_left]

/-- C9: `Not(inner).describe_constraint()` toggles a leading
"should not " marker into "should " and a leading "should " marker into
"should not " (the longer marker takes priority), and wraps any other
description as "Not: " followed by it unchanged. -/
theorem not_describe_toggles_marker (msg : String) :
    (∀ rest, msg = "should not " ++ rest → notDescribe msg = "should " ++ rest) ∧
    ((∀ rest, msg ≠ "should not " ++ rest) →
      ∀ rest, msg = "should " ++ rest → notDescribe msg = "should not " ++ rest) ∧
    ((∀ rest, msg ≠ "should not " ++ rest) → (∀ rest, msg ≠ "should " ++ rest) →
      notDescribe msg = "Not: " ++ msg) := by
  refine ⟨?_, ?_, ?_⟩
  · rintro rest rfl
    have h1 : pyStartsWith ("should not " ++ rest) "should not " = true :=
      (pyStartsWith_iff _ _).mpr ⟨rest, rfl⟩
    unfold notDescribe
    rw [if_pos h1]
    apply String.ext
    show replaceFirst "should not ".data "should ".data ("should not " ++ rest).data =
      ("should " ++ rest).data
    rw [String.data_append, String.data_append,
      replaceFirst_of_isPrefix _ _ _ (by decide)]
  · intro hno
    rintro rest rfl
    have h1 : pyStartsWith ("should " ++ rest) "should not " = false := by
      cases hps : pyStartsWith ("should " ++ rest) "should not " with
      | false => rfl
      | true =>
        obtain ⟨r, hr⟩ := (pyStartsWith_iff _ _).mp hps
        exact absurd hr (hno r)
    have h2 : pyStartsWith ("should " ++ rest) "should " = true :=
      (pyStartsWith_iff _ _).mpr ⟨rest, rfl⟩
    unfold notDescribe
    rw [if_neg (by simp [h1]), if_pos h2]
    apply String.ext
    show replaceFirst "should ".data "should not ".data ("should " ++ rest).data =
      ("should not " ++ rest).data
    rw [String.data_append, String.data_append,
      replaceFirst_of_isPrefix _ _ _ (by decide)]
  · intro hno1 hno2
    have h1 : pyStartsWith msg "should not " = false := by
      cases hps : pyStartsWith msg "should not " with
      | false => rfl
      | true =>
        obtain ⟨r, hr⟩ := (pyStartsWith_iff _ _).mp hps
        exact absurd hr (hno1 r)
    have h2 : pyStartsWith msg "should " = false := by
      cases hps : pyStartsWith msg "should " with
      | false => rfl
      | true =>
        obtain ⟨r, hr⟩ := (pyStartsWith_iff _ _).mp hps
        exact absurd hr (hno2 r)
    unfold notDescribe
    rw [if_neg (by simp [h1]), if_neg (by simp [h2])]

/-- C9 witness: toggling at a concrete description. -/
theorem not_describe_toggles_marker_witness :
    notDescribe "should not be anything" = "should " ++ "be anything" :=
  (not_describe_toggles_marker "should not be anything").1 "be anything" rfl

/-- C6: an error that is not a constraint-unmet signal, raised from
inside a delegated check, propagates unchanged through `Not.verify` and
through every stage of `CollaborateWith.verify` — never converted into a
success or into a constraint-unmet signal. -/
theorem composite_propagates_other_errors :
    (∀ (c : Lancelot.Constraint) (a : PyAction) (e : PyError),
      c.verify a = Except.error e → isUnmet e = false →
      (Lancelot.Not c).verify a = Except.error e) ∧
    (∀ (σ : Type) (collabs : List (Collaboration σ))
      (action : σ → Except PyError Value × σ) (s s1 s2 : σ)
      (hs : List (MockHandle σ)) (e : PyError),
      collabArm collabs s = (Except.ok hs, s1) →
      action s1 = (Except.error e, s2) → isUnmet e = false →
      Lancelot.collaborateWithVerify collabs action s = (Except.error e, s2)) ∧
    (∀ (σ : Type) (collabs : List (Collaboration σ))
      (action : σ → Except PyError Value × σ) (s s1 s2 s3 : σ)
      (hs : List (MockHandle σ)) (v : Value) (e : PyError),
      collabArm collabs s = (Except.ok hs, s1) →
      action s1 = (Except.ok v, s2) →
      collabVerifyHandles hs s2 = (Except.error e, s3) → isUnmet e = false →
      Lancelot.collaborateWithVerify collabs action s = (Except.error e, s3)) := by
  refine ⟨?_, ?_, ?_⟩
  · intro c a e h he
    simp [Lancelot.Not, h, he]
  · intro σ collabs action s s1 s2 hs e harm hact _
    simp [Lancelot.collaborateWithVerify, harm, hact]
  · intro σ collabs action s s1 s2 s3 hs v e harm hact hver _
    simp [Lancelot.collaborateWithVerify, harm, hact, hver]

/-- C6 witness: each propagation case at concrete inputs. -/
theorem composite_propagates_other_errors_witness :
    (Lancelot.Not Lancelot.BeAnything).verify
        (Except.error { exact := 7, supers := [], msg := "boom" }) =
      Except.error { exact := 7, supers := [], msg := "boom" } ∧
    Lancelot.collaborateWithVerify ([] : List (Collaboration Nat))
        (fun n => (Except.error { exact := 7, supers := [], msg := "boom" }, n + 1)) 0 =
      (Except.error { exact := 7, supers := [], msg := "boom" }, 1) ∧
    Lancelot.collaborateWithVerify
        [({ start_collaborating := fun n =>
            (Except.ok { verify := fun m =>
              (Except.error { exact := 7, supers := [], msg := "boom" }, m + 10) }, n + 1) } :
          Collaboration Nat)]
        (fun n => (Except.ok Value.none, n + 100)) 0 =
      (Except.error { exact := 7, supers := [], msg := "boom" }, 111) :=
  ⟨composite_propagates_other_errors.1 Lancelot.BeAnything _ _ rfl rfl,
   composite_propagates_other_errors.2.1 Nat [] _ 0 0 1 [] _ rfl rfl rfl,
   composite_propagates_other_errors.2.2 Nat _ _ 0 1 101 111 _ Value.none _ rfl rfl rfl rfl⟩

theorem collabArm_mkCollab (fails : Nat → Option PyError) (is : List Nat) :
    ∀ s : List TEvent,
      collabArm (is.map (mkCollab fails)) s =
        (Except.ok (is.map (mkHandle fails)), s ++ is.map TEvent.started) := by
  induction is with
  | nil => intro s; simp [collabArm]
  | cons i rest ih =>
    intro s
    simp only [List.map_cons, collabArm, mkCollab, ih (s ++ [TEvent.started i]),
      List.map_cons]
    rw [List.append_assoc]
    rfl

theorem collabVerifyHandles_mkHandle_ok (fails : Nat → Option PyError)
    (is : List Nat) (h : ∀ i ∈ is, fails i = none) :
    ∀ s : List TEvent,
      collabVerifyHandles (is.map (mkHandle fails)) s =
        (Except.ok (), s ++ is.map TEvent.checked) := by
  induction is with
  | nil => intro s; simp [collabVerifyHandles]
  | cons i rest ih =>
    intro s
    have hi : fails i = none := h i (List.mem_cons_self i rest)
    have hrest : ∀ j ∈ rest, fails j = none := fun j hj => h j (List.mem_cons_of_mem i hj)
    simp only [List.map_cons, collabVerifyHandles, mkHandle, hi, ih hrest]
    rw [List.append_assoc]
    rfl

theorem collabVerifyHandles_mkHandle_fail (fails : Nat → Option PyError)
    (is1 : List Nat) (j : Nat) (is2 : List Nat) (e : PyError)
    (h1 : ∀ i ∈ is1, fails i = none) (hj : fails j = some e) :
    ∀ s : List TEvent,
      collabVerifyHandles ((is1 ++ j :: is2).map (mkHandle fails)) s =
        (Except.error e, s ++ (is1 ++ [j]).map TEvent.checked) := by
  induction is1 with
  | nil =>
    intro s
    simp [collabVerifyHandles, mkHandle, hj]
  | cons i rest ih =>
    intro s
    have hi : fails i = none := h1 i (List.mem_cons_self i rest)
    have hrest : ∀ k ∈ rest, fails k = none := fun k hk => h1 k (List.mem_cons_of_mem i hk)
    have hstep : collabVerifyHandles (((i :: rest) ++ j :: is2).map (mkHandle fails)) s =
        collabVerifyHandles ((rest ++ j :: is2).map (mkHandle fails))
          (s ++ [TEvent.checked i]) := by
      simp [collabVerifyHandles, mkHandle, hi]
    rw [hstep, ih hrest]
    simp

/-- C5: `CollaborateWith(e1, ..., en).verify(action)` arms every
expectation in declaration order, invokes the shared deferred action
exactly once, then verifies each handle in declaration order; the first
handle whose verification fails aborts the remaining verifications and
that failure surfaces. -/
theorem collaborateWith_order_and_first_failure (n : Nat)
    (fails : Nat → Option PyError) :
    ((∀ i, i < n → fails i = none) →
      Lancelot.collaborateWithVerify ((List.range n).map (mkCollab fails))
          recordingAction [] =
        (Except.ok (),
         (List.range n).map TEvent.started ++ [TEvent.invoked] ++
           (List.range n).map TEvent.checked)) ∧
    (∀ j e, j < n → (∀ i, i < j → fails i = none) → fails j = some e →
      Lancelot.collaborateWithVerify ((List.range n).map (mkCollab fails))
          recordingAction [] =
        (Except.error e,
         (List.range n).map TEvent.started ++ [TEvent.invoked] ++
           (List.range (j + 1)).map TEvent.checked)) := by
  constructor
  · intro h
    have hmem : ∀ i ∈ List.range n, fails i = none := by
      intro i hi
      exact h i (List.mem_range.mp hi)
    unfold Lancelot.collaborateWithVerify
    rw [collabArm_mkCollab fails (List.range n) []]
    show (match recordingAction ([] ++ (List.range n).map TEvent.started) with
      | (Except.error e, s2) => (Except.error e, s2)
      | (Except.ok _, s2) => collabVerifyHandles ((List.range n).map (mkHandle fails)) s2) = _
    unfold recordingAction
    show collabVerifyHandles ((List.range n).map (mkHandle fails))
        (([] ++ (List.range n).map TEvent.started) ++ [TEvent.invoked]) = _
    rw [collabVerifyHandles_mkHandle_ok fails (List.range n) hmem]
    simp
  · intro j e hj hlt hfj
    have hsplit : List.range n = List.range j ++ j :: (List.range (n - (j + 1))).map ((j + 1) + ·) := by
      have hn : n = (j + 1) + (n - (j + 1)) := by omega
      have h2 : (j + 1) + (n - (j + 1)) - (j + 1) = n - (j + 1) := by omega
      rw [hn, List.range_add, List.range_succ, List.append_assoc, h2]
      rfl
    have hmem : ∀ i ∈ List.range j, fails i = none := by
      intro i hi
      exact hlt i (List.mem_range.mp hi)
    unfold Lancelot.collaborateWithVerify
    rw [collabArm_mkCollab fails (List.range n) []]
    show (match recordingAction ([] ++ (List.range n).map TEvent.started) with
      | (Except.error e, s2) => (Except.error e, s2)
      | (Except.ok _, s2) => collabVerifyHandles ((List.range n).map (mkHandle fails)) s2) = _
    unfold recordingAction
    show collabVerifyHandles ((List.range n).map (mkHandle fails))
        (([] ++ (List.range n).map TEvent.started) ++ [TEvent.invoked]) = _
    rw [hsplit, collabVerifyHandles_mkHandle_fail fails (List.range j) j
      ((List.range (n - (j + 1))).map ((j + 1) + ·)) e hmem hfj]
    rw [← List.range_succ, ← hsplit]
    simp

/-- C5 witness: two expectations that both pass, and three expectations
where the second fails and the third is never verified. -/
theorem collaborateWith_order_and_first_failure_witness :
    Lancelot.collaborateWithVerify
        ((List.range 2).map (mkCollab (fun _ => none))) recordingAction [] =
      (Except.ok (),
       (List.range 2).map TEvent.started ++ [TEvent.invoked] ++
         (List.range 2).map TEvent.checked) ∧
    Lancelot.collaborateWithVerify
        ((List.range 3).map (mkCollab
          (fun i => if i == 1 then some { exact := 9, supers := [], msg := "uc" } else none)))
          recordingAction [] =
      (Except.error { exact := 9, supers := [], msg := "uc" },
       (List.range 3).map TEvent.started ++ [TEvent.invoked] ++
         (List.range (1 + 1)).map TEvent.checked) :=
  ⟨(collaborateWith_order_and_first_failure 2 (fun _ => none)).1 (fun _ _ => rfl),
   (collaborateWith_order_and_first_failure 3
      (fun i => if i == 1 then some { exact := 9, supers := [], msg := "uc" } else none)).2
    1 { exact := 9, supers := [], msg := "uc" } (by decide)
    (by
      intro i hi
      have : i = 0 := by omega
      subst this
      rfl)
    rfl⟩

theorem verifyLoop_eq (specs : List Verifiable) : ∀ tr : List LEvent,
    Lancelot.verifyLoop specs tr =
      ((countVerified specs, countUnverified specs), tr ++ specs.flatMap specEvents) := by
  induction specs with
  | nil =>
    intro tr
    simp [Lancelot.verifyLoop, countVerified, countUnverified]
  | cons s rest ih =>
    intro tr
    cases h : s.outcome with
    | ok u =>
      simp [Lancelot.verifyLoop, Lancelot.verifyFn, h, ih, countVerified,
        countUnverified, specEvents, List.filter_cons]
    | error e =>
      simp [Lancelot.verifyLoop, Lancelot.verifyFn, h, ih, countVerified,
        countUnverified, specEvents, List.filter_cons]

theorem countVerified_add_countUnverified (specs : List Verifiable) :
    countVerified specs + countUnverified specs = specs.length := by
  induction specs with
  | nil => rfl
  | cons s rest ih =>
    cases h : s.outcome with
    | ok u =>
      simp [countVerified, countUnverified, List.filter_cons, h] at ih ⊢
      omega
    | error e =>
      simp [countVerified, countUnverified, List.filter_cons, h] at ih ⊢
      omega

theorem startedIds_flatMap (specs : List Verifiable) :
    startedIds (specs.flatMap specEvents) = specs.map (fun s => s.id) := by
  induction specs with
  | nil => rfl
  | cons s rest ih =>
    cases h : s.outcome with
    | ok u =>
      simp only [List.flatMap_cons, startedIds, List.filterMap_append, specEvents, h] at ih ⊢
      simp [ih]
    | error e =>
      simp only [List.flatMap_cons, startedIds, List.filterMap_append, specEvents, h] at ih ⊢
      simp [ih]

theorem foldl_includeSpec (specs : List Verifiable) :
    ∀ r : Lancelot.AllVerifiable,
      (List.foldl Lancelot.AllVerifiable.includeSpec r specs).specs = r.specs ++ specs := by
  induction specs with
  | nil => intro r; simp
  | cons s rest ih =>
    intro r
    simp [List.foldl_cons, Lancelot.AllVerifiable.includeSpec, ih]

/-- C1 (spec-modelled registry): with `N` included specifications of
which `K` raise, `verify()` invokes every entry in insertion order with
no fail-fast (a `verificationStarted` notification is emitted for every
entry, in insertion order, whatever earlier entries did) and returns
`{total: N, verified: N-K, unverified: K}`; `total()` equals `N` right
after the `N`-th include, before any `verify()` call. -/
theorem registry_tallies_and_total (specs : List Verifiable) :
    ((Lancelot.AllVerifiable.verify { specs := specs } []).1 =
      { total := specs.length,
        verified := specs.length - countUnverified specs,
        unverified := countUnverified specs }) ∧
    (startedIds (Lancelot.AllVerifiable.verify { specs := specs } []).2 =
      specs.map (fun s => s.id)) ∧
    ((List.foldl Lancelot.AllVerifiable.includeSpec { specs := [] } specs).total =
      specs.length) := by
  have hsum := countVerified_add_countUnverified specs
  refine ⟨?_, ?_, ?_⟩
  · simp only [Lancelot.AllVerifiable.verify, verifyLoop_eq]
    have hv : countVerified specs = specs.length - countUnverified specs := by omega
    rw [hv]
  · have h := startedIds_flatMap specs
    simp only [Lancelot.AllVerifiable.verify, verifyLoop_eq]
    simp only [startedIds] at h ⊢
    simp only [List.filterMap_append, List.nil_append, List.filterMap_cons,
      List.filterMap_nil, h]
    exact List.append_nil _
  · rw [Lancelot.AllVerifiable.total, foldl_includeSpec specs { specs := [] }]
    rfl

/-- C8 (spec-modelled registry): `verify()` notifies the listener in
exactly this fixed order: `runStarting` once, then per entry in insertion
order `verificationStarted` followed by exactly one of
`specificationMet` or `specificationUnmet` carrying the raw error, then
`runEnding` once, carrying the result tallies it returns. -/
theorem registry_listener_fixed_order (specs : List Verifiable) (tr : List LEvent) :
    ((Lancelot.AllVerifiable.verify { specs := specs } tr).2 =
      tr ++ [LEvent.runStarting] ++ specs.flatMap specEvents ++
        [LEvent.runEnding specs.length (countVerified specs) (countUnverified specs)]) ∧
    ((Lancelot.AllVerifiable.verify { specs := specs } tr).1 =
      { total := specs.length,
        verified := countVerified specs,
        unverified := countUnverified specs }) := by
  constructor
  · simp only [Lancelot.AllVerifiable.verify, verifyLoop_eq]
  · simp only [Lancelot.AllVerifiable.verify, verifyLoop_eq]
